import Mathlib

set_option maxHeartbeats 1000000

/-!
Verification development for the granola-cli repository.

The source-resolution and data-normalization layer of the CLI is shallowly
embedded below.  Conventions used throughout:

* A JavaScript object used as a map is modelled as an association list
  (`Obj`); list order models the key insertion order that `Object.values`
  and `Object.keys` iterate in.
* A field that may be `undefined` is modelled as an `Option`.
* JavaScript string truthiness (the empty string is falsy) is modelled by
  `jsStr`; the `a || b` idiom on strings is `jsOr`.
* `new Date(s).getTime()` is modelled by `parseDate`, a strictly monotone
  embedding of calendar dates `YYYY-MM-DD` into `Int`; any other string is
  treated as unparseable (`none`, modelling `NaN`).  `new Date(0)` is the
  integer `0`.
* `Array.prototype.sort` is stable (ES2019), with a comparator result of
  `NaN` treated as `+0` by `SortCompare`; it is modelled by `jsSortBy`, a
  kernel-computable stable merge sort by the relation `cmp a b <= 0`,
  provably equal to `List.mergeSort`.
* Exceptions of a fallible call are modelled with `Except`; the successive
  responses of the cursor-paginated `getDocuments` call are modelled as a
  list of per-call results, the end of the list modelling an absent
  `next_cursor`.
-/

namespace Granola

/-- A JS object used as a map: association list, in key insertion order. -/
abbrev Obj (β : Type) := List (String × β)

/-- Key lookup in an object, `m[k]`. -/
def objLookup (m : Obj β) (k : String) : Option β :=
  List.lookup k m

/-- `Object.values(m)`, in key order. -/
def objValues (m : Obj β) : List β :=
  m.map (·.2)

/-- JS truthiness of an optional string: the empty string is falsy. -/
def jsStr (a : Option String) : Option String :=
  match a with
  | some s => if s.isEmpty then none else some s
  | none => none

/-- The JS idiom `a || b` on optional strings. -/
def jsOr (a b : Option String) : Option String :=
  match jsStr a with
  | some s => some s
  | none => b

/-- JS truthiness of an optional boolean (`undefined` is falsy). -/
def jsBool (a : Option Bool) : Bool :=
  a.getD false

/-- Is the first character list a prefix of the second one. -/
def charsPref : List Char → List Char → Bool
  | [], _ => true
  | _ :: _, [] => false
  | a :: as, b :: bs => a == b && charsPref as bs

/-- Is the first character list a contiguous sublist of the second one. -/
def charsSub : List Char → List Char → Bool
  | q, [] => q.isEmpty
  | q, b :: bs => charsPref q (b :: bs) || charsSub q bs

/-- `s.includes(q)` on strings. -/
def strIncludes (s q : String) : Bool :=
  charsSub q.data s.data

/-- `s.startsWith(q)` on strings. -/
def sStartsWith (s q : String) : Bool :=
  charsPref q.data s.data

/-- `s.toLowerCase()`; case-insensitivity is modelled over ASCII. -/
def sToLower (s : String) : String :=
  ⟨s.data.map Char.toLower⟩

/-- Code-point lexicographic order on character lists. -/
def charsLe : List Char → List Char → Bool
  | [], _ => true
  | _ :: _, [] => false
  | a :: as, b :: bs => if a == b then charsLe as bs else decide (a < b)

/-- Code-point string order, modelling `localeCompare <= 0`. -/
def sLe (a b : String) : Bool :=
  charsLe a.data b.data

/-- `s.trim()` on strings. -/
def sTrim (s : String) : String :=
  ⟨((s.data.dropWhile Char.isWhitespace).reverse.dropWhile Char.isWhitespace).reverse⟩

/-- Split a character list on a separator character. -/
def splitOnChar (sep : Char) : List Char → List (List Char)
  | [] => [[]]
  | c :: cs =>
    let r := splitOnChar sep cs
    if c == sep then [] :: r
    else
      match r with
      | h :: t => (c :: h) :: t
      | [] => [[c]]

/-- Parse a non-empty all-digit character list as a natural number. -/
def digitsToNat : List Char → Option Nat
  | [] => none
  | cs =>
    if cs.all (·.isDigit) then
      some (cs.foldl (fun n c => n * 10 + (c.toNat - 48)) 0)
    else none

/-- Model of `new Date(s).getTime()`: a strictly monotone encoding of
`YYYY-MM-DD` dates; every other string parses to `none` (NaN). -/
def parseDate (s : String) : Option Int :=
  match splitOnChar '-' s.data with
  | [y, m, d] =>
    match digitsToNat y, digitsToNat m, digitsToNat d with
    | some yn, some mn, some dn =>
      if 1 ≤ mn ∧ mn ≤ 12 ∧ 1 ≤ dn ∧ dn ≤ 31 then
        some (((yn : Int) - 1970) * 372 + ((mn : Int) - 1) * 31 + ((dn : Int) - 1))
      else none
    | _, _, _ => none
  | _ => none

/-- Fuel-based merge of two lists by a boolean switch; with enough fuel it
is the standard stable merge (see `mergeF_eq`). -/
def mergeF (le : α → α → Bool) : Nat → List α → List α → List α
  | _, [], ys => ys
  | _, x :: xs, [] => x :: xs
  | 0, xs, ys => xs ++ ys
  | f+1, x :: xs, y :: ys =>
    if le x y then x :: mergeF le f xs (y :: ys) else y :: mergeF le f (x :: xs) ys

/-- Stable merge, kernel-computable; equal to `List.merge`. -/
def jsMerge (le : α → α → Bool) (xs ys : List α) : List α :=
  mergeF le (xs.length + ys.length) xs ys

/-- Fuel-based stable merge sort mirroring `List.mergeSort`; with enough
fuel the two agree (see `msortF_eq`). -/
def msortF (le : α → α → Bool) : Nat → List α → List α
  | _, [] => []
  | _, [a] => [a]
  | 0, l => l
  | fuel+1, a :: b :: xs =>
    let lr := List.splitInTwo ⟨a :: b :: xs, rfl⟩
    jsMerge le (msortF le fuel lr.1.1) (msortF le fuel lr.2.1)

/-- The model of `Array.prototype.sort` with a comparator: a stable merge
sort by the relation `comparator a b <= 0`, kernel-computable and equal to
`List.mergeSort` (see `jsSortBy_eq`). -/
def jsSortBy (le : α → α → Bool) (l : List α) : List α :=
  msortF le l.length l

/-- `google_calendar_event.start` (src/src/lib/types.ts). -/
structure EventStart where
  dateTime : Option String := none
deriving DecidableEq

/-- A calendar-event attendee (src/src/lib/types.ts). -/
structure EventAttendee where
  email : Option String := none
  displayName : Option String := none
deriving DecidableEq

/-- `google_calendar_event` (src/src/lib/types.ts). -/
structure CalendarEvent where
  start : Option EventStart := none
  attendees : Option (List EventAttendee) := none
deriving DecidableEq

/-- One entry of a document `people` field.  The source accepts either an
array or a keyed map and iterates the values; the model holds the iterated
sequence directly. -/
structure Person where
  name : Option String := none
  email : Option String := none
deriving DecidableEq

/-- `last_viewed_panel` of a document; the ProseMirror `content` payload is
modelled opaquely by its markdown rendering. -/
structure PanelRef where
  content : Option String := none
deriving DecidableEq

/-- The Meeting Record (`Document` in src/src/lib/types.ts). -/
structure Document where
  id : String
  title : Option String := none
  type : Option String := none
  created_at : Option String := none
  updated_at : Option String := none
  notes_markdown : Option String := none
  notes_plain : Option String := none
  was_trashed : Option Bool := none
  people : Option (List Person) := none
  google_calendar_event : Option CalendarEvent := none
  last_viewed_panel : Option PanelRef := none
deriving DecidableEq

/-- A transcript segment (src/src/lib/types.ts). -/
structure TranscriptSegment where
  text : String
  source : Option String := none
  start_timestamp : Option String := none
  end_timestamp : Option String := none
  speaker : Option String := none
deriving DecidableEq

/-- An entry of `documentListsMetadata` (src/src/lib/types.ts). -/
structure FolderMeta where
  id : String
  title : Option String := none
  name : Option String := none
  visibility : Option String := none
  is_shared : Option Bool := none
  deleted_at : Option String := none
deriving DecidableEq

/-- The folder record produced by `getFoldersFromCache`. -/
structure FolderInfo where
  id : String
  title : String
  noteCount : Nat
  visibility : Option String := none
  isShared : Option Bool := none
deriving DecidableEq

/-- The Cache Snapshot (`CacheState` in src/src/lib/types.ts).  The
`workspaceData`, `people` and `sharedDocuments` maps are not consumed by
any claim under verification and are omitted. -/
structure CacheState where
  documents : Option (Obj Document) := none
  transcripts : Option (Obj (List TranscriptSegment)) := none
  documentPanels : Option (Obj (Obj PanelRef)) := none
  documentLists : Option (Obj (List String)) := none
  documentListsMetadata : Option (Obj FolderMeta) := none
deriving DecidableEq

/-- `ListOptions` (src resolve module).  The CLI parses `--limit` as a
decimal number; the model carries it as a natural number. -/
structure ListOptions where
  limit : Option Nat := none
  workspace : Option String := none
  folder : Option String := none
  attendee : Option String := none
  since : Option String := none
  «until» : Option String := none
  query : Option String := none
deriving DecidableEq

/-- The best-available date of a record for the date filter:
`doc.created_at || doc.updated_at || doc.google_calendar_event?.start?.dateTime`. -/
def bestDate (doc : Document) : Option String :=
  jsStr (jsOr doc.created_at (jsOr doc.updated_at
    ((doc.google_calendar_event.bind (·.start)).bind (·.dateTime))))

/-- `matchesDate` (resolve module, lines 17-30). -/
def matchesDate (doc : Document) (since «until» : Option String) : Bool :=
  match bestDate doc with
  | none => true
  | some dateStr =>
    let time := parseDate dateStr
    let sinceOk : Bool :=
      match jsStr since with
      | none => true
      | some s =>
        match parseDate s, time with
        | some sv, some tv => !(decide (tv < sv))
        | _, _ => true
    let untilOk : Bool :=
      match jsStr «until» with
      | none => true
      | some u =>
        match parseDate u, time with
        | some uv, some tv => !(decide (uv < tv))
        | _, _ => true
    sinceOk && untilOk

/-- `matchesAttendee` (resolve module, lines 32-45). -/
def matchesAttendee (doc : Document) (attendee : Option String) : Bool :=
  match jsStr attendee with
  | none => true
  | some att =>
    let q := sToLower att
    let people := doc.people.getD []
    let attendeeList := (doc.google_calendar_event.bind (·.attendees)).getD []
    people.any (fun p =>
      p.name.any (fun n => strIncludes (sToLower n) q) ||
      p.email.any (fun e => strIncludes (sToLower e) q)) ||
    attendeeList.any (fun a =>
      strIncludes (sToLower ((jsStr a.displayName).getD "")) q ||
      strIncludes (sToLower ((jsStr a.email).getD "")) q)

/-- `matchesQuery` (resolve module, lines 47-53). -/
def matchesQuery (doc : Document) (query : Option String) : Bool :=
  match jsStr query with
  | none => true
  | some qs =>
    let q := sToLower qs
    let title := sToLower ((jsStr doc.title).getD "")
    let notes := sToLower ((jsStr (jsOr doc.notes_markdown doc.notes_plain)).getD "")
    strIncludes title q || strIncludes notes q

/-- The recency key read by `sortByUpdated`:
`new Date(d.updated_at || d.created_at || 0).getTime()`; `none` models NaN. -/
def sortKey (d : Document) : Option Int :=
  match jsStr (jsOr d.updated_at d.created_at) with
  | none => some 0
  | some s => parseDate s

/-- The recency key with NaN defaulted, used only to state sortedness. -/
def sortKeyD (d : Document) : Int :=
  (sortKey d).getD 0

/-- The stable-sort relation induced by the comparator `sortByUpdated`:
`a` may stay before `b` iff the comparator is `<= 0`; a NaN comparator
value counts as `+0` (a tie) per the `SortCompare` specification. -/
def sortLe (a b : Document) : Bool :=
  match sortKey a, sortKey b with
  | some ka, some kb => decide (kb ≤ ka)
  | _, _ => true

/-- A total transitive companion of `sortLe`; the two agree on documents
whose recency key parses. -/
def leTot (a b : Document) : Bool :=
  decide (sortKeyD b ≤ sortKeyD a)

/-- `getDocuments` (src/src/lib/cache.ts, line 37). -/
def getDocuments (state : CacheState) : List Document :=
  objValues (state.documents.getD [])

/-- `getMeetings` (src/src/lib/cache.ts, line 41). -/
def getMeetings (state : CacheState) : List Document :=
  (getDocuments state).filter (fun d => d.type == some "meeting" && !(jsBool d.was_trashed))

/-- `getDocumentById` (src/src/lib/cache.ts, line 45). -/
def getDocumentById (state : CacheState) (id : String) : Option Document :=
  state.documents.bind (fun m => objLookup m id)

/-- `getTranscript` (src/src/lib/cache.ts, line 49). -/
def getTranscript (state : CacheState) (id : String) : Option (List TranscriptSegment) :=
  state.transcripts.bind (fun m => objLookup m id)

/-- `getEnhancedNotes` (src/src/lib/cache.ts, lines 53-59). -/
def getEnhancedNotes (state : CacheState) (id : String) : Option String :=
  match state.documentPanels.bind (fun m => objLookup m id) with
  | none => none
  | some panels =>
    match (panels.map (·.1)).head? with
    | none => none
    | some panelId =>
      match objLookup panels panelId with
      | some entry => entry.content
      | none => none

/-- `getFoldersFromCache` (src/src/lib/cache.ts, lines 61-72).
`localeCompare` is modelled as code-point string order. -/
def getFoldersFromCache (state : CacheState) : List FolderInfo :=
  let metadata := state.documentListsMetadata.getD []
  let lists := state.documentLists.getD []
  jsSortBy (fun a b => sLe a.title b.title)
    (((objValues metadata).filter (fun f => !(jsStr f.deleted_at).isSome)).map (fun f =>
      { id := f.id
        title := (jsStr (jsOr f.title f.name)).getD "(untitled)"
        noteCount := ((objLookup lists f.id).getD []).length
        visibility := f.visibility
        isShared := f.is_shared }))

/-- The folder-resolution predicate of `getDocumentsByFolderFromCache`:
exact id, or case-insensitive substring of the folder title. -/
def folderMatchQ (f : FolderInfo) (q : String) : Bool :=
  f.id == q || strIncludes (sToLower f.title) (sToLower q)

/-- The recency key of the sort inside `getDocumentsByFolderFromCache`:
`new Date(d.updated_at || 0).getTime()`. -/
def folderSortKey (d : Document) : Option Int :=
  match jsStr d.updated_at with
  | none => some 0
  | some s => parseDate s

/-- The stable-sort relation for the sort inside
`getDocumentsByFolderFromCache`. -/
def folderSortLe (a b : Document) : Bool :=
  match folderSortKey a, folderSortKey b with
  | some ka, some kb => decide (kb ≤ ka)
  | _, _ => true

/-- `getDocumentsByFolderFromCache` (src/src/lib/cache.ts, lines 74-85). -/
def getDocumentsByFolderFromCache (state : CacheState) (folderIdOrName : String) :
    List Document :=
  let folders := getFoldersFromCache state
  let lists := state.documentLists.getD []
  match folders.find? (fun f => folderMatchQ f folderIdOrName) with
  | none => []
  | some target =>
    let docIds := (objLookup lists target.id).getD []
    jsSortBy folderSortLe ((getDocuments state).filter (fun d => docIds.contains d.id))

/-- The list gathered by `listFromCache` before its final sort and slice
(resolve module, lines 89-99). -/
def cacheGathered (state : CacheState) (opts : ListOptions) : List Document :=
  let docs :=
    match jsStr opts.folder with
    | some q => getDocumentsByFolderFromCache state q
    | none => getMeetings state
  ((docs.filter (fun d => matchesDate d opts.since opts.«until»)).filter
    (fun d => matchesAttendee d opts.attendee)).filter
    (fun d => matchesQuery d opts.query)

/-- `listFromCache` (resolve module, lines 89-101). -/
def listFromCache (state : CacheState) (opts : ListOptions) : List Document :=
  (jsSortBy sortLe (cacheGathered state opts)).take (opts.limit.getD 20)

/-- One `getDocuments` response (`DocumentsResponse`): `docs` may be
absent; the presence of `next_cursor` is modelled by the position of the
response in the call sequence of the client. -/
structure DocsPage where
  docs : Option (List Document) := none
deriving DecidableEq

/-- A `documents` entry of a `DocumentList` response. -/
structure DocIdRef where
  id : String
deriving DecidableEq

/-- A folder as returned by `getDocumentLists` (src/src/lib/types.ts). -/
structure DocumentList where
  id : String
  title : Option String := none
  name : Option String := none
  document_ids : Option (List String) := none
  documents : Option (List DocIdRef) := none
deriving DecidableEq

/-- The behavior of the Remote Data Source (`ApiClient`, src/src/lib/api.ts)
as observed by the Resolution Engine.  `pageResults` are the successive
results of the paginated `getDocuments` calls made by `listFromApi`;
`getDocumentsPanels` is the one-shot `getDocuments` call (limit 200, with
last-viewed panels) made by the detail views; `getDocumentTranscript`
returns the segment list already normalized by the wire adapter.  An
`Except.error` models a thrown exception. -/
structure ApiClient where
  pageResults : List (Except Unit DocsPage) := []
  getDocumentLists : Except Unit (List DocumentList) := .error ()
  getDocumentMetadata : String → Except Unit Document := fun _ => .error ()
  getDocumentsPanels : Except Unit DocsPage := .error ()
  getDocumentTranscript : String → Except Unit (List TranscriptSegment) := fun _ => .error ()

/-- The folder-resolution predicate of `resolveFolderDocIdsApi`:
`f.id === q || (f.title || f.name || '').toLowerCase().includes(q.toLowerCase())`. -/
def apiFolderMatch (f : DocumentList) (q : String) : Bool :=
  f.id == q || strIncludes (sToLower ((jsStr (jsOr f.title f.name)).getD "")) (sToLower q)

/-- `resolveFolderDocIdsApi` (resolve module, lines 112-120); the membership
set is carried as the id list. -/
def resolveFolderDocIdsApi (client : ApiClient) (folderIdOrName : String) :
    Except Unit (Option (List String)) :=
  match client.getDocumentLists with
  | .error e => .error e
  | .ok lists =>
    match lists.find? (fun f => apiFolderMatch f folderIdOrName) with
    | none => .ok none
    | some target =>
      let ids :=
        match target.document_ids with
        | some ids => ids
        | none =>
          match target.documents with
          | some ds => ds.map (·.id)
          | none => []
      .ok (some ids)

/-- The per-page filter chain of `listFromApi` (resolve module, lines 74-79). -/
def apiPageFilter (opts : ListOptions) (folderIds : Option (List String))
    (d : Document) : Bool :=
  (d.type == some "meeting" && !(jsBool d.was_trashed)) &&
  matchesDate d opts.since opts.«until» &&
  matchesAttendee d opts.attendee &&
  matchesQuery d opts.query &&
  (match folderIds with
   | some ids => ids.contains d.id
   | none => true)

/-- The pagination loop of `listFromApi` (resolve module, lines 65-84): the
loop head checks the accumulated count against the limit, then awaits the
next page, filters it and appends; the call list ending models an absent
`next_cursor`. -/
def apiGo (flt : Document → Bool) (limit : Nat) :
    List (Except Unit DocsPage) → List Document → Except Unit (List Document)
  | [], results => .ok results
  | c :: rest, results =>
    if results.length < limit then
      match c with
      | .error e => .error e
      | .ok page =>
        apiGo flt limit rest (results ++ (page.docs.getD []).filter flt)
    else .ok results

/-- The accumulation phase of `listFromApi`: folder resolution followed by
the pagination loop, before the final sort and slice. -/
def apiAccum (client : ApiClient) (opts : ListOptions) : Except Unit (List Document) :=
  match
    (match jsStr opts.folder with
     | some q => resolveFolderDocIdsApi client q
     | none => .ok none) with
  | .error e => .error e
  | .ok folderIds =>
    apiGo (apiPageFilter opts folderIds) (opts.limit.getD 20) client.pageResults []

/-- `listFromApi` (resolve module, lines 59-87). -/
def listFromApi (client : ApiClient) (opts : ListOptions) : Except Unit (List Document) :=
  match apiAccum client opts with
  | .error e => .error e
  | .ok acc => .ok ((jsSortBy sortLe acc).take (opts.limit.getD 20))

/-- The three source modes (resolve module, line 5). -/
inductive SourceMode
  | auto
  | api
  | cache
deriving DecidableEq

/-- A typed CLI failure (`CliError`, src/src/lib/errors.ts). -/
structure CliError where
  message : String
  exitCode : Nat
deriving DecidableEq

/-- The per-invocation environment of the command layer: the outcome of
`extractAccessToken`, the remote behavior, and the parsed cache snapshot
(the on-disk load itself is modelled by `loadCacheState`). -/
structure Env where
  token : Except Unit String := .error ()
  client : ApiClient := {}
  state : CacheState := {}

/-- `getApiClient` (src/src/cli.ts, lines 50-59). -/
def getApiClient (env : Env) (mode : SourceMode) (allowFallback : Bool) :
    Except CliError (Option ApiClient) :=
  match mode with
  | .cache => .ok none
  | _ =>
    match env.token with
    | .ok _ => .ok (some env.client)
    | .error _ =>
      if allowFallback then .ok none
      else .error ⟨"Authentication required. Could not read Granola token.", 2⟩

/-- `listMeetings` (src/src/cli.ts, lines 61-84).  In `api` mode a remote
failure propagates as an unclassified error (exit code 1). -/
def listMeetings (env : Env) (mode : SourceMode) (opts : ListOptions) :
    Except CliError (List Document) :=
  match mode with
  | .cache => .ok (listFromCache env.state opts)
  | _ =>
    match getApiClient env mode (mode == .auto) with
    | .error e => .error e
    | .ok none => .ok (listFromCache env.state opts)
    | .ok (some client) =>
      match mode with
      | .api =>
        match listFromApi client opts with
        | .error _ => .error ⟨"API error", 1⟩
        | .ok docs => .ok docs
      | _ =>
        match listFromApi client opts with
        | .error _ => .ok (listFromCache env.state opts)
        | .ok docs => .ok docs

/-- `resolveMeetingIdFromList` (resolve module, lines 103-110). -/
def resolveMeetingIdFromList (docs : List Document) (query : String) : Option String :=
  if query.isEmpty then none
  else
    match docs.find? (fun d => d.id == query || sStartsWith d.id query) with
    | some d => some d.id
    | none =>
      let lower := sToLower query
      match docs.find? (fun d => strIncludes (sToLower ((jsStr d.title).getD "")) lower) with
      | some d => some d.id
      | none => none

/-- `resolveMeetingId` (src/src/cli.ts, lines 86-91). -/
def resolveMeetingId (env : Env) (mode : SourceMode) (query : String) :
    Except CliError String :=
  match listMeetings env mode { limit := some 200 } with
  | .error e => .error e
  | .ok docs =>
    match resolveMeetingIdFromList docs query with
    | some id => .ok id
    | none => .error ⟨"Meeting not found for: " ++ query, 4⟩

/-- `formatEnhancedMarkdown` (output module): the ProseMirror conversion of
the opaque payload is the payload itself. -/
def formatEnhancedMarkdown (content : String) : String :=
  let md := sTrim content
  if md.isEmpty then "(No summary)" else md

/-- One line of `formatTranscriptMarkdown` with timestamps enabled
(src format module). -/
def formatTranscriptLine (seg : TranscriptSegment) : String :=
  let speaker :=
    match jsStr seg.speaker with
    | some sp => sp
    | none =>
      if seg.source == some "microphone" then "You"
      else if seg.source == some "system" then "Them"
      else "Speaker"
  let ts :=
    match jsStr seg.start_timestamp with
    | some t => "[" ++ t ++ "] "
    | none => ""
  ts ++ speaker ++ ": " ++ seg.text

/-- `formatTranscriptMarkdownOutput` (src output module). -/
def formatTranscriptMarkdownOutput (segments : List TranscriptSegment) : String :=
  String.intercalate "\n" (segments.map formatTranscriptLine)

/-- Which data source a displayed piece of a detail view came from. -/
inductive Origin
  | remote
  | cache
deriving DecidableEq

/-- The data assembled by the `meeting view` action, each optional piece
tagged with the source it came from. -/
structure ViewOut where
  doc : Document
  docOrigin : Origin
  notes : Option (Origin × String)
  enhanced : Option (Origin × String)
deriving DecidableEq

/-- The single try block of the `meeting view` action (src/src/cli.ts,
lines 156-168): `none` models the catch that clears `doc`. -/
def viewRemote (c : ApiClient) (id : String) :
    Option (Document × Option String × Option String) :=
  match c.getDocumentMetadata id with
  | .error _ => none
  | .ok doc =>
    let notes := jsStr (jsOr doc.notes_markdown doc.notes_plain)
    match c.getDocumentsPanels with
    | .error _ => none
    | .ok resp =>
      let enhanced :=
        match (resp.docs.getD []).find? (fun d => d.id == id) with
        | some m => (m.last_viewed_panel.bind (·.content)).map formatEnhancedMarkdown
        | none => none
      some (doc, notes, enhanced)

/-- The cache branch of the `meeting view` action (src/src/cli.ts,
lines 170-178). -/
def viewFromCacheData (state : CacheState) (id query : String) :
    Except CliError ViewOut :=
  match getDocumentById state id with
  | none => .error ⟨"Meeting not found for: " ++ query, 4⟩
  | some cached =>
    let notes := jsStr (jsOr cached.notes_markdown cached.notes_plain)
    let enhanced := (getEnhancedNotes state id).map formatEnhancedMarkdown
    .ok { doc := cached, docOrigin := .cache,
          notes := notes.map (fun n => (Origin.cache, n)),
          enhanced := enhanced.map (fun e => (Origin.cache, e)) }

/-- The `meeting view` action (src/src/cli.ts, lines 141-192), after id
resolution, with the client already resolved (none in cache mode or when
no token is readable in auto mode). -/
def viewAction (client : Option ApiClient) (state : CacheState) (id query : String) :
    Except CliError ViewOut :=
  match client with
  | some c =>
    match viewRemote c id with
    | some (doc, notes, enhanced) =>
      .ok { doc := doc, docOrigin := .remote,
            notes := notes.map (fun n => (Origin.remote, n)),
            enhanced := enhanced.map (fun e => (Origin.remote, e)) }
    | none => viewFromCacheData state id query
  | none => viewFromCacheData state id query

/-- The data assembled by the `meeting export` action, each optional piece
tagged with the source it came from. -/
structure ExportOut where
  doc : Document
  docOrigin : Origin
  summary : Option (Origin × String)
  transcript : Option (Origin × String)
deriving DecidableEq

/-- The single try block of the `meeting export` action (src/src/cli.ts,
lines 316-329): `none` models the catch that clears `doc`. -/
def exportRemote (c : ApiClient) (id : String) :
    Option (Document × Option String × Option String) :=
  match c.getDocumentMetadata id with
  | .error _ => none
  | .ok doc =>
    match c.getDocumentsPanels with
    | .error _ => none
    | .ok resp =>
      let summary :=
        match (resp.docs.getD []).find? (fun d => d.id == id) with
        | some m => (m.last_viewed_panel.bind (·.content)).map formatEnhancedMarkdown
        | none => none
      match c.getDocumentTranscript id with
      | .error _ => none
      | .ok segments => some (doc, summary, some (formatTranscriptMarkdownOutput segments))

/-- The cache branch of the `meeting export` action (src/src/cli.ts,
lines 331-340). -/
def exportFromCacheData (state : CacheState) (id query : String) :
    Except CliError ExportOut :=
  match getDocumentById state id with
  | none => .error ⟨"Meeting not found for: " ++ query, 4⟩
  | some cached =>
    let summary := (getEnhancedNotes state id).map formatEnhancedMarkdown
    let transcript := (getTranscript state id).map formatTranscriptMarkdownOutput
    .ok { doc := cached, docOrigin := .cache,
          summary := summary.map (fun s => (Origin.cache, s)),
          transcript := transcript.map (fun t => (Origin.cache, t)) }

/-- The `meeting export` action (src/src/cli.ts, lines 303-351), after id
resolution; the final step restores a missing `doc.id` (lines 342-344). -/
def exportAction (client : Option ApiClient) (state : CacheState) (id query : String) :
    Except CliError ExportOut :=
  let base : Except CliError ExportOut :=
    match client with
    | some c =>
      match exportRemote c id with
      | some (doc, summary, transcript) =>
        .ok { doc := doc, docOrigin := .remote,
              summary := summary.map (fun s => (Origin.remote, s)),
              transcript := transcript.map (fun t => (Origin.remote, t)) }
      | none => exportFromCacheData state id query
    | none => exportFromCacheData state id query
  match base with
  | .error e => .error e
  | .ok out =>
    .ok { out with doc := if out.doc.id.isEmpty then { out.doc with id := id } else out.doc }

/-- The inner payload of the cache file after the possibly double-encoded
`cache` field has been decoded. -/
structure InnerCache where
  state : Option CacheState := none

/-- `loadCacheState` (src/src/lib/cache.ts, lines 18-28).  The argument is
`none` when the cache file does not exist, `some (.error ())` when reading
or JSON-decoding the payload throws, and `some (.ok inner)` on success; a
missing `state` key yields the empty state. -/
def loadCacheState (file : Option (Except Unit InnerCache)) : Except Unit CacheState :=
  match file with
  | none => .error ()
  | some (.error _) => .error ()
  | some (.ok inner) => .ok (inner.state.getD {})

/-! Concrete sample data used by witnesses and counterexamples. -/

/-- A trashed meeting whose id sits in a folder membership list. -/
def c2Trashed : Document :=
  { id := "b2", title := some "1:1 with Sam", type := some "meeting",
    updated_at := some "2024-01-12", was_trashed := some true }

/-- A snapshot whose folder `F1` (titled Sales) contains only the trashed
meeting `b2`. -/
def c2State : CacheState :=
  { documents := some [("b2", c2Trashed)],
    documentLists := some [("F1", ["b2"])],
    documentListsMetadata := some [("F1", { id := "F1", title := some "Sales" })] }

/-- A plain meeting titled Standup, updated 2024-01-10. -/
def dA : Document :=
  { id := "a1", type := some "meeting", title := some "Standup",
    updated_at := some "2024-01-10" }

/-- A plain untitled meeting, updated 2024-01-15. -/
def dC : Document :=
  { id := "c3", type := some "meeting", updated_at := some "2024-01-15" }

/-- A snapshot holding the two plain meetings. -/
def c5State : CacheState :=
  { documents := some [("a1", dA), ("c3", dC)] }

/-- A remote client serving one page with the two plain meetings and a
folder list holding one folder titled Projects. -/
def c10Client : ApiClient :=
  { pageResults := [.ok { docs := some [dA, dC] }],
    getDocumentLists := .ok [{ id := "g1", title := some "Projects" }] }

/-- An environment whose token is unreadable, over the plain snapshot. -/
def c4Env : Env :=
  { token := .error (), state := c5State }

/-- An environment with a readable token whose remote fails on every call. -/
def c4EnvB : Env :=
  { token := .ok "tok",
    client := { pageResults := [.error ()], getDocumentLists := .error () },
    state := c5State }

/-- A document carrying no date fields at all. -/
def dNoDate : Document :=
  { id := "n0" }

/-- A document whose only date string does not parse as a date. -/
def dBadDate : Document :=
  { id := "bd", created_at := some "yesterday" }

/-- A snapshot with a transcript entry whose id has no document (a dangling
reference). -/
def c8State : CacheState :=
  { transcripts := some [("t1", [])] }

/-- The remote copy of meeting m1. -/
def c3Remote : Document :=
  { id := "m1", title := some "Remote title" }

/-- The cached copy of meeting m1. -/
def c3Cached : Document :=
  { id := "m1", title := some "Cached title" }

/-- A remote client whose metadata and panel fetches succeed for m1 but
whose transcript fetch always fails. -/
def c3Client : ApiClient :=
  { getDocumentMetadata := fun i => if i == "m1" then .ok c3Remote else .error (),
    getDocumentsPanels := .ok { docs := some [] },
    getDocumentTranscript := fun _ => .error () }

/-- A remote client for which every detail fetch succeeds, with an empty
panel page and an empty transcript. -/
def c3OkClient : ApiClient :=
  { getDocumentMetadata := fun i => if i == "m1" then .ok c3Remote else .error (),
    getDocumentsPanels := .ok { docs := some [] },
    getDocumentTranscript := fun _ => .ok [] }

/-- The snapshot holding the cached copy of m1. -/
def c3State : CacheState :=
  { documents := some [("m1", c3Cached)] }

/-- The view data assembled from the remote success path on `c3Client`. -/
def c7Out : ViewOut :=
  { doc := c3Remote, docOrigin := .remote, notes := none, enhanced := none }

/-! Infrastructure lemmas about the stable sort model. -/

theorem mergeF_eq (le : α → α → Bool) :
    ∀ (f : Nat) (xs ys : List α), xs.length + ys.length ≤ f →
      mergeF le f xs ys = List.merge xs ys le := by
  intro f
  induction f with
  | zero =>
    intro xs ys h
    match xs, ys, h with
    | [], ys, _ => simp [mergeF]
    | x :: xs, [], h => simp [mergeF]
  | succ n ih =>
    intro xs ys h
    match xs, ys with
    | [], ys => simp [mergeF]
    | x :: xs, [] => simp [mergeF]
    | x :: xs, y :: ys =>
      rw [List.cons_merge_cons]
      simp only [mergeF]
      simp only [List.length_cons] at h
      rw [ih xs (y :: ys) (by simp; omega), ih (x :: xs) ys (by simp; omega)]

theorem jsMerge_eq (le : α → α → Bool) (xs ys : List α) :
    jsMerge le xs ys = List.merge xs ys le :=
  mergeF_eq le _ xs ys (Nat.le_refl _)

theorem msortF_eq (le : α → α → Bool) :
    ∀ (fuel : Nat) (l : List α), l.length ≤ fuel → msortF le fuel l = l.mergeSort le := by
  intro fuel
  induction fuel with
  | zero =>
    intro l hl
    match l, hl with
    | [], _ => simp [msortF]
    | [a], h => simp [msortF]
  | succ n ih =>
    intro l hl
    match l with
    | [] => simp [msortF]
    | [a] => simp [msortF]
    | a :: b :: xs =>
      rw [List.mergeSort]
      simp only [msortF, jsMerge_eq]
      have h1 : (List.splitInTwo ⟨a :: b :: xs, rfl⟩).1.1.length ≤ n := by
        simp [List.splitInTwo_fst]
        simp at hl
        omega
      have h2 : (List.splitInTwo ⟨a :: b :: xs, rfl⟩).2.1.length ≤ n := by
        simp [List.splitInTwo_snd]
        simp at hl
        omega
      rw [ih _ h1, ih _ h2]

theorem jsSortBy_eq (le : α → α → Bool) (l : List α) :
    jsSortBy le l = l.mergeSort le :=
  msortF_eq le l.length l (Nat.le_refl _)

theorem jsSortBy_perm (le : α → α → Bool) (l : List α) :
    (jsSortBy le l).Perm l := by
  rw [jsSortBy_eq]
  exact List.mergeSort_perm l le

theorem mem_jsSortBy {le : α → α → Bool} {l : List α} {a : α} :
    a ∈ jsSortBy le l ↔ a ∈ l := by
  rw [jsSortBy_eq]
  exact List.mem_mergeSort

theorem length_jsSortBy (le : α → α → Bool) (l : List α) :
    (jsSortBy le l).length = l.length := by
  rw [jsSortBy_eq]
  exact List.length_mergeSort l

theorem leTot_trans :
    ∀ (a b c : Document), leTot a b → leTot b c → leTot a c := by
  intro a b c hab hbc
  simp only [leTot, decide_eq_true_eq] at hab hbc ⊢
  omega

theorem leTot_total :
    ∀ (a b : Document), leTot a b || leTot b a := by
  intro a b
  simp only [leTot, Bool.or_eq_true, decide_eq_true_eq]
  omega

theorem sortLe_eq_leTot {l : List Document}
    (h : ∀ d ∈ l, (sortKey d).isSome) :
    jsSortBy sortLe l = jsSortBy leTot l := by
  rw [jsSortBy_eq, jsSortBy_eq]
  have hmap := @List.map_mergeSort Document Document sortLe leTot id l ?_
  · simpa using hmap
  · intro a ha b hb
    obtain ⟨ka, hka⟩ := Option.isSome_iff_exists.mp (h a ha)
    obtain ⟨kb, hkb⟩ := Option.isSome_iff_exists.mp (h b hb)
    simp [sortLe, leTot, sortKeyD, hka, hkb]

theorem jsSortBy_sorted {l : List Document}
    (h : ∀ d ∈ l, (sortKey d).isSome) :
    (jsSortBy sortLe l).Pairwise (fun a b => sortKeyD b ≤ sortKeyD a) := by
  rw [sortLe_eq_leTot h, jsSortBy_eq]
  have := @List.sorted_mergeSort Document leTot leTot_trans leTot_total l
  exact this.imp (fun hab => by simpa [leTot] using hab)

theorem jsSortBy_stable {l : List Document} {a b : Document}
    (h : ∀ d ∈ l, (sortKey d).isSome)
    (hk : sortKeyD a = sortKeyD b) (hs : [a, b].Sublist l) :
    [a, b].Sublist (jsSortBy sortLe l) := by
  rw [sortLe_eq_leTot h, jsSortBy_eq]
  exact List.pair_sublist_mergeSort leTot_trans leTot_total
    (by simp [leTot, hk]) hs

theorem jsSortBy_take_top {l : List Document} {n : Nat}
    (h : ∀ d ∈ l, (sortKey d).isSome) :
    ∀ a ∈ (jsSortBy sortLe l).take n, ∀ b ∈ l,
      b ∉ (jsSortBy sortLe l).take n → sortKeyD b ≤ sortKeyD a := by
  intro a ha b hb hnb
  have hsorted := jsSortBy_sorted h
  have hsplit : jsSortBy sortLe l =
      (jsSortBy sortLe l).take n ++ (jsSortBy sortLe l).drop n :=
    (List.take_append_drop n _).symm
  have hbmem : b ∈ jsSortBy sortLe l := mem_jsSortBy.mpr hb
  have hbdrop : b ∈ (jsSortBy sortLe l).drop n := by
    rw [hsplit] at hbmem
    rcases List.mem_append.mp hbmem with h1 | h2
    · exact absurd h1 hnb
    · exact h2
  rw [hsplit] at hsorted
  exact (List.pairwise_append.mp hsorted).2.2 a ha b hbdrop

theorem objLookup_eq_none {β : Type} {m : Obj β} {k : String}
    (h : ∀ kv ∈ m, kv.1 ≠ k) : objLookup m k = none := by
  induction m with
  | nil => rfl
  | cons hd tl ih =>
    obtain ⟨k1, v1⟩ := hd
    have hkk : k1 ≠ k := h (k1, v1) (List.mem_cons_self _ _)
    have hne : (k == k1) = false :=
      beq_eq_false_iff_ne.mpr (fun hkeq => hkk hkeq.symm)
    simp only [objLookup, List.lookup, hne]
    exact ih (fun kv hkv => h kv (List.mem_cons_of_mem _ hkv))

theorem folder_unresolved_empty {state : CacheState} {q : String}
    (h : ∀ f ∈ getFoldersFromCache state, folderMatchQ f q = false) :
    getDocumentsByFolderFromCache state q = [] := by
  have hfind : (getFoldersFromCache state).find? (fun f => folderMatchQ f q) = none :=
    List.find?_eq_none.mpr (fun x hx => by simp [h x hx])
  simp [getDocumentsByFolderFromCache, hfind]

/-! Claim theorems. -/

/-- C1 (counterexample): with documents whose ids are ab then a, resolving
the query a returns ab, the first id-prefix match, even though a document
whose id equals the query exists later in the list. -/
theorem c1_exact_match_loses :
    resolveMeetingIdFromList [{ id := "ab" }, { id := "a" }] "a" = some "ab" ∧
    ({ id := "a" } : Document) ∈ ([{ id := "ab" }, { id := "a" }] : List Document) ∧
    ("ab" : String) ≠ "a" := by
  refine ⟨by decide, by decide, by decide⟩

/-- C1 (amended): for a non-empty query, resolution returns the id of the
first document whose id equals or starts with the query, in one combined
pass (so an exact match later in the list does not win over an earlier
prefix match); only when no id-based match exists, the id of the first
document whose title contains the query case-insensitively; and when
nothing matches, a null outcome that the caller turns into a
Meeting-not-found error with exit code 4. -/
theorem c1_single_item_resolution :
    (∀ (docs : List Document) (query : String) (d : Document), query ≠ "" →
       docs.find? (fun x => x.id == query || sStartsWith x.id query) = some d →
       resolveMeetingIdFromList docs query = some d.id) ∧
    (∀ (docs : List Document) (query : String), query ≠ "" →
       (∀ d ∈ docs, (d.id == query || sStartsWith d.id query) = false) →
       resolveMeetingIdFromList docs query =
         (docs.find? (fun d =>
           strIncludes (sToLower ((jsStr d.title).getD "")) (sToLower query))).map (·.id)) ∧
    (∀ (docs : List Document) (query : String),
       resolveMeetingIdFromList docs query = none →
       ∀ (env : Env) (mode : SourceMode),
         listMeetings env mode { limit := some 200 } = .ok docs →
         resolveMeetingId env mode query =
           .error ⟨"Meeting not found for: " ++ query, 4⟩) := by
  refine ⟨?_, ?_, ?_⟩
  · intro docs query d hq hfind
    have hne : query.isEmpty = false := by
      cases hqe : query.isEmpty
      · rfl
      · exact absurd ((String.isEmpty_iff query).mp hqe) hq
    simp [resolveMeetingIdFromList, hne, hfind]
  · intro docs query hq hall
    have hne : query.isEmpty = false := by
      cases hqe : query.isEmpty
      · rfl
      · exact absurd ((String.isEmpty_iff query).mp hqe) hq
    have hfind : docs.find? (fun x => x.id == query || sStartsWith x.id query) = none :=
      List.find?_eq_none.mpr (fun x hx => by simp [hall x hx])
    simp only [resolveMeetingIdFromList, hne, Bool.false_eq_true, if_false, hfind]
    cases docs.find? (fun d =>
        strIncludes (sToLower ((jsStr d.title).getD "")) (sToLower query)) <;> simp
  · intro docs query hres env mode hlist
    simp [resolveMeetingId, hlist, hres]

/-- C1 witness: applying the amended resolution statements at concrete
inputs. -/
theorem c1_single_item_resolution_witness :
    resolveMeetingIdFromList [dA, dC] "a1" = some "a1" ∧
    resolveMeetingId c4Env .cache "zzz" =
      .error ⟨"Meeting not found for: " ++ "zzz", 4⟩ := by
  constructor
  · exact c1_single_item_resolution.1 [dA, dC] "a1" dA (by decide) (by decide)
  · exact c1_single_item_resolution.2.2 [dC, dA] "zzz" (by decide) c4Env .cache rfl

/-- C2 (code evaluation at the failing input): in cache mode with folder
filter F1, the list query returns the record b2 even though b2 is trashed,
because the folder path reads all documents rather than only non-trashed
meetings. -/
theorem c2_trashed_in_folder_returned :
    listFromCache c2State { folder := some "F1" } = [c2Trashed] ∧
    c2Trashed.was_trashed = some true ∧
    c2Trashed ∈ listFromCache c2State { folder := some "F1" } := by
  refine ⟨by decide, rfl, by decide⟩

/-- C6: the date filter reads the best-available date (creation time, else
update time, else the calendar event start); a record with no usable date
always passes; a bound that does not parse as a date acts as no bound; and
the date filter only narrows a list. -/
theorem c6_date_window :
    (∀ (doc : Document) (since untl : Option String),
       bestDate doc = none → matchesDate doc since untl = true) ∧
    (∀ (doc : Document) (since untl : Option String) (s : String),
       bestDate doc = some s → parseDate s = none →
       matchesDate doc since untl = true) ∧
    (∀ (doc : Document) (untl : Option String) (s : String),
       parseDate s = none →
       matchesDate doc (some s) untl = matchesDate doc none untl) ∧
    (∀ (doc : Document) (since : Option String) (u : String),
       parseDate u = none →
       matchesDate doc since (some u) = matchesDate doc since none) ∧
    (∀ (docs : List Document) (since untl : Option String),
       (docs.filter (fun d => matchesDate d since untl)).Sublist docs) := by
  refine ⟨?_, ?_, ?_, ?_, ?_⟩
  · intro doc since untl h
    simp [matchesDate, h]
  · intro doc since untl s h hp
    simp only [matchesDate, h, hp]
    cases hs : jsStr since <;> cases hu : jsStr untl <;> simp
  · intro doc untl s hp
    simp only [matchesDate]
    cases hb : bestDate doc
    · rfl
    · by_cases hse : s.isEmpty
      · simp [jsStr, hse]
      · simp [jsStr, hse, hp]
  · intro doc since u hp
    simp only [matchesDate]
    cases hb : bestDate doc
    · rfl
    · by_cases hue : u.isEmpty
      · simp [jsStr, hue]
      · simp [jsStr, hue, hp]
  · intro docs since untl
    exact List.filter_sublist docs

/-- C6 witness: a record with no date fields passes any window, the
unparseable bound string yesterday acts as no bound, and the filter
narrows a concrete list. -/
theorem c6_date_window_witness :
    matchesDate dNoDate (some "2024-01-01") (some "2024-02-01") = true ∧
    matchesDate dA (some "yesterday") none = matchesDate dA none none ∧
    ([dA, dNoDate].filter (fun d => matchesDate d (some "2024-01-01") none)).Sublist
      [dA, dNoDate] := by
  refine ⟨?_, ?_, ?_⟩
  · exact c6_date_window.1 dNoDate (some "2024-01-01") (some "2024-02-01") (by decide)
  · exact c6_date_window.2.2.1 dA none "yesterday" (by decide)
  · exact c6_date_window.2.2.2.2 [dA, dNoDate] (some "2024-01-01") none

/-- C8: lookups on the cache snapshot are total: a missing map or a
nonexistent or dangling id yields an explicit not-found value, never a
thrown error; only the initial load can fail, and a missing cache file is
a hard failure there. -/
theorem c8_lookups_total :
    (loadCacheState none = .error ()) ∧
    (∀ (state : CacheState) (id : String),
       state.documents = none → getDocumentById state id = none) ∧
    (∀ (state : CacheState) (id : String),
       (∀ kv ∈ state.documents.getD [], kv.1 ≠ id) →
       getDocumentById state id = none) ∧
    (∀ (state : CacheState) (id : String),
       state.transcripts = none → getTranscript state id = none) ∧
    (∀ (state : CacheState) (id : String),
       (∀ kv ∈ state.transcripts.getD [], kv.1 ≠ id) →
       getTranscript state id = none) ∧
    (∀ (state : CacheState) (id : String),
       state.documentPanels = none → getEnhancedNotes state id = none) ∧
    (∀ (state : CacheState) (id : String),
       state.documentPanels.bind (fun m => objLookup m id) = some [] →
       getEnhancedNotes state id = none) := by
  refine ⟨rfl, ?_, ?_, ?_, ?_, ?_, ?_⟩
  · intro state id h
    simp [getDocumentById, h]
  · intro state id h
    cases hd : state.documents with
    | none => simp [getDocumentById, hd]
    | some m =>
      rw [hd] at h
      simp only [Option.getD_some] at h
      simp [getDocumentById, hd, objLookup_eq_none h]
  · intro state id h
    simp [getTranscript, h]
  · intro state id h
    cases hd : state.transcripts with
    | none => simp [getTranscript, hd]
    | some m =>
      rw [hd] at h
      simp only [Option.getD_some] at h
      simp [getTranscript, hd, objLookup_eq_none h]
  · intro state id h
    simp [getEnhancedNotes, h]
  · intro state id h
    simp [getEnhancedNotes, h]

/-- C8 witness: on a snapshot holding only a dangling transcript entry,
the document lookup for that id and the transcript lookup for another id
both return not-found, and the load of a missing cache file fails. -/
theorem c8_lookups_total_witness :
    loadCacheState none = .error () ∧
    getDocumentById c8State "t1" = none ∧
    getTranscript c8State "zz" = none ∧
    getEnhancedNotes c8State "t1" = none := by
  refine ⟨c8_lookups_total.1, ?_, ?_, ?_⟩
  · exact c8_lookups_total.2.1 c8State "t1" rfl
  · exact c8_lookups_total.2.2.2.2.1 c8State "zz" (by decide)
  · exact c8_lookups_total.2.2.2.2.2.1 c8State "t1" rfl

/-- C9: the cache folder lookup resolves a folder by exact id or
case-insensitive title substring; when no folder resolves it returns the
empty sequence, not an error; and every returned document has its id in
the membership list of a resolved folder. -/
theorem c9_folder_lookup :
    (∀ (state : CacheState) (q : String),
       (∀ f ∈ getFoldersFromCache state, folderMatchQ f q = false) →
       getDocumentsByFolderFromCache state q = []) ∧
    (∀ (state : CacheState) (q : String) (d : Document),
       d ∈ getDocumentsByFolderFromCache state q →
       ∃ f, f ∈ getFoldersFromCache state ∧ folderMatchQ f q = true ∧
         d.id ∈ (objLookup (state.documentLists.getD []) f.id).getD []) := by
  constructor
  · intro state q h
    exact folder_unresolved_empty h
  · intro state q d hd
    simp only [getDocumentsByFolderFromCache] at hd
    cases hf : (getFoldersFromCache state).find? (fun f => folderMatchQ f q) with
    | none => rw [hf] at hd; simp at hd
    | some target =>
      rw [hf] at hd
      have hmem := mem_jsSortBy.mp hd
      have hflt := List.mem_filter.mp hmem
      refine ⟨target, List.mem_of_find?_eq_some hf, by simpa using List.find?_some hf, ?_⟩
      have := hflt.2
      simpa using this

/-- C4: in auto mode, when no credential token can be read, or when the
remote fails on every call, a list query returns a result identical (same
records, same order) to calling listFromCache on the snapshot with the
same filters. -/
theorem c4_auto_fallback :
    ∀ (env : Env) (opts : ListOptions),
      (env.token = .error () ∨
        (env.client.getDocumentLists = .error () ∧
         env.client.pageResults ≠ [] ∧
         (∀ p ∈ env.client.pageResults, p = .error ()))) →
      listMeetings env .auto opts = .ok (listFromCache env.state opts) := by
  intro env opts h
  rcases h with htok | ⟨hlists, hne, hall⟩
  · simp [listMeetings, getApiClient, htok]
  · cases htok : env.token with
    | error e => simp [listMeetings, getApiClient, htok]
    | ok t =>
      simp only [listMeetings, getApiClient, htok]
      cases hfol : jsStr opts.folder with
      | some q =>
        simp [listFromApi, apiAccum, hfol, resolveFolderDocIdsApi, hlists]
      | none =>
        by_cases hlim : opts.limit.getD 20 = 0
        · cases hpg : env.client.pageResults with
          | nil =>
            simp [listFromApi, apiAccum, hfol, hpg, apiGo, hlim, listFromCache,
              jsSortBy, msortF]
          | cons c rest =>
            simp [listFromApi, apiAccum, hfol, hpg, apiGo, hlim, listFromCache,
              jsSortBy, msortF]
        · cases hpg : env.client.pageResults with
          | nil => exact absurd hpg hne
          | cons c rest =>
            have hc : c = .error () := hall c (by rw [hpg]; exact List.mem_cons_self _ _)
            have hlim0 : 0 < opts.limit.getD 20 := Nat.pos_of_ne_zero hlim
            simp [listFromApi, apiAccum, hfol, hpg, apiGo, hc, hlim0]

/-- C4 witness: the fallback equivalence at a concrete environment with an
unreadable token and at one whose remote fails on every call. -/
theorem c4_auto_fallback_witness :
    listMeetings c4Env .auto {} = .ok (listFromCache c4Env.state {}) ∧
    listMeetings c4EnvB .auto {} = .ok (listFromCache c4EnvB.state {}) := by
  constructor
  · exact c4_auto_fallback c4Env {} (Or.inl rfl)
  · refine c4_auto_fallback c4EnvB {} (Or.inr ⟨rfl, ?_, ?_⟩)
    · exact List.cons_ne_nil _ _
    · intro p hp
      simp only [c4EnvB, List.mem_singleton] at hp
      exact hp

/-- C10: an API list query whose folder filter resolves to no folder (no
exact id match and no case-insensitive title substring match) applies no
folder restriction and equals the same query without a folder filter,
whereas the cache list query returns the empty sequence for the same
unresolved folder filter. -/
theorem c10_unresolved_folder :
    (∀ (client : ApiClient) (opts : ListOptions) (q : String)
       (lists : List DocumentList),
       jsStr opts.folder = some q →
       client.getDocumentLists = .ok lists →
       (∀ f ∈ lists, apiFolderMatch f q = false) →
       listFromApi client opts = listFromApi client { opts with folder := none }) ∧
    (∀ (state : CacheState) (opts : ListOptions) (q : String),
       jsStr opts.folder = some q →
       (∀ f ∈ getFoldersFromCache state, folderMatchQ f q = false) →
       listFromCache state opts = []) := by
  constructor
  · intro client opts q lists hfol hlists hnone
    have hfind : lists.find? (fun f => apiFolderMatch f q) = none :=
      List.find?_eq_none.mpr (fun x hx => by simp [hnone x hx])
    have hres : resolveFolderDocIdsApi client q = .ok none := by
      simp [resolveFolderDocIdsApi, hlists, hfind]
    simp only [listFromApi, apiAccum, hfol, hres]
    rfl
  · intro state opts q hfol hnone
    have hempty := folder_unresolved_empty hnone
    simp [listFromCache, cacheGathered, hfol, hempty, jsSortBy, msortF]

/-- C10 witness: the equivalence at a concrete client whose one folder
title Projects does not match the query Nope, and the empty cache result
for the same unresolved filter. -/
theorem c10_unresolved_folder_witness :
    listFromApi c10Client { folder := some "Nope" } =
      listFromApi c10Client
        { ({ folder := some "Nope" } : ListOptions) with folder := none } ∧
    listFromCache c2State { folder := some "Nope" } = [] := by
  constructor
  · exact c10_unresolved_folder.1 c10Client { folder := some "Nope" } "Nope"
      [{ id := "g1", title := some "Projects" }] rfl rfl (by decide)
  · exact c10_unresolved_folder.2 c2State { folder := some "Nope" } "Nope" rfl (by decide)

/-- C5: every list result, from either source, is the stable descending
sort by recency key (updated_at, else created_at, else epoch zero) of the
full gathered set, truncated to the limit (default 20): the length never
exceeds the limit; the result is pairwise sorted by descending recency;
tied records keep their gathered order through the sort; and any gathered
record left out has a recency key no larger than every kept one, which is
exactly truncation-after-sort. -/
theorem c5_sort_and_limit :
    (∀ (state : CacheState) (opts : ListOptions),
       (∀ d ∈ cacheGathered state opts, (sortKey d).isSome) →
       (listFromCache state opts).length ≤ opts.limit.getD 20 ∧
       (listFromCache state opts).Pairwise (fun a b => sortKeyD b ≤ sortKeyD a) ∧
       (∀ a b, sortKeyD a = sortKeyD b →
          [a, b].Sublist (cacheGathered state opts) →
          [a, b].Sublist (jsSortBy sortLe (cacheGathered state opts))) ∧
       (∀ a ∈ listFromCache state opts, ∀ b ∈ cacheGathered state opts,
          b ∉ listFromCache state opts → sortKeyD b ≤ sortKeyD a)) ∧
    (∀ (client : ApiClient) (opts : ListOptions) (acc : List Document),
       apiAccum client opts = .ok acc →
       (∀ d ∈ acc, (sortKey d).isSome) →
       listFromApi client opts =
         .ok ((jsSortBy sortLe acc).take (opts.limit.getD 20)) ∧
       ((jsSortBy sortLe acc).take (opts.limit.getD 20)).length ≤
         opts.limit.getD 20 ∧
       ((jsSortBy sortLe acc).take (opts.limit.getD 20)).Pairwise
         (fun a b => sortKeyD b ≤ sortKeyD a) ∧
       (∀ a b, sortKeyD a = sortKeyD b → [a, b].Sublist acc →
          [a, b].Sublist (jsSortBy sortLe acc)) ∧
       (∀ a ∈ (jsSortBy sortLe acc).take (opts.limit.getD 20), ∀ b ∈ acc,
          b ∉ (jsSortBy sortLe acc).take (opts.limit.getD 20) →
          sortKeyD b ≤ sortKeyD a)) := by
  constructor
  · intro state opts hall
    have hL : listFromCache state opts =
        (jsSortBy sortLe (cacheGathered state opts)).take (opts.limit.getD 20) := rfl
    refine ⟨?_, ?_, ?_, ?_⟩
    · rw [hL]
      exact List.length_take_le _ _
    · rw [hL]
      exact List.Pairwise.sublist (List.take_sublist _ _) (jsSortBy_sorted hall)
    · intro a b hk hs
      exact jsSortBy_stable hall hk hs
    · intro a ha b hb hnb
      rw [hL] at ha hnb
      exact jsSortBy_take_top hall a ha b hb hnb
  · intro client opts acc hacc hall
    have hApi : listFromApi client opts =
        .ok ((jsSortBy sortLe acc).take (opts.limit.getD 20)) := by
      simp [listFromApi, hacc]
    refine ⟨hApi, List.length_take_le _ _, ?_, ?_, ?_⟩
    · exact List.Pairwise.sublist (List.take_sublist _ _) (jsSortBy_sorted hall)
    · intro a b hk hs
      exact jsSortBy_stable hall hk hs
    · intro a ha b hb hnb
      exact jsSortBy_take_top hall a ha b hb hnb

/-- C5 witness: the sort and limit statements applied at a concrete
snapshot and at a concrete one-page remote client. -/
theorem c5_sort_and_limit_witness :
    (listFromCache c5State {}).length ≤ 20 ∧
    (listFromCache c5State {}).Pairwise (fun a b => sortKeyD b ≤ sortKeyD a) ∧
    listFromApi c10Client {} = .ok ((jsSortBy sortLe [dA, dC]).take 20) := by
  refine ⟨?_, ?_, ?_⟩
  · exact (c5_sort_and_limit.1 c5State {} (by decide)).1
  · exact (c5_sort_and_limit.1 c5State {} (by decide)).2.1
  · exact (c5_sort_and_limit.2 c10Client {} [dA, dC] rfl (by decide)).1

theorem mem_tag {o : Option String} {org : Origin} {p : Origin × String}
    (hp : p ∈ o.map (fun n => (org, n))) : p.1 = org := by
  cases o with
  | none => simp at hp
  | some n =>
    simp [Option.mem_def] at hp
    subst hp
    rfl

/-- C3 (counterexample): with a client whose metadata fetch for m1
succeeds, returning the remote record, but whose transcript fetch fails,
the export view does not keep the fetched remote data with the transcript
absent: it falls back to the cache wholesale and displays the cached
record. -/
theorem c3_subordinate_failure_not_kept :
    c3Client.getDocumentMetadata "m1" = .ok c3Remote ∧
    c3Client.getDocumentTranscript "m1" = .error () ∧
    (exportAction (some c3Client) c3State "m1" "m1").toOption.map
      (fun o => (o.docOrigin, o.doc.title)) =
      some (Origin.cache, some "Cached title") ∧
    c3Remote.title = some "Remote title" :=
  ⟨rfl, rfl, rfl, rfl⟩

/-- C3 (amended): in the view and export actions all remote sub-fetches
share one try block, so when the primary metadata fetch succeeds but a
subordinate fetch fails, the whole view falls back to the cache, identical
to running with no client; a subordinate piece is rendered absent with the
remote data kept only when every remote fetch succeeds and that piece has
no content. -/
theorem c3_detail_composition :
    (∀ (c : ApiClient) (state : CacheState) (id query : String) (doc : Document),
       c.getDocumentMetadata id = .ok doc →
       c.getDocumentTranscript id = .error () →
       exportAction (some c) state id query = exportAction none state id query) ∧
    (∀ (c : ApiClient) (state : CacheState) (id query : String) (doc : Document),
       c.getDocumentMetadata id = .ok doc →
       c.getDocumentsPanels = .error () →
       viewAction (some c) state id query = viewAction none state id query) ∧
    (∀ (c : ApiClient) (state : CacheState) (id query : String) (doc : Document)
       (page : DocsPage) (segs : List TranscriptSegment),
       c.getDocumentMetadata id = .ok doc →
       c.getDocumentsPanels = .ok page →
       ((page.docs.getD []).find? (fun d => d.id == id)).bind
         (fun m => m.last_viewed_panel.bind (·.content)) = none →
       c.getDocumentTranscript id = .ok segs →
       doc.id.isEmpty = false →
       exportAction (some c) state id query =
         .ok { doc := doc, docOrigin := .remote, summary := none,
               transcript := some (.remote, formatTranscriptMarkdownOutput segs) }) := by
  refine ⟨?_, ?_, ?_⟩
  · intro c state id query doc hmeta htr
    have hr : exportRemote c id = none := by
      cases hp : c.getDocumentsPanels with
      | error e => simp [exportRemote, hmeta, hp]
      | ok page => simp [exportRemote, hmeta, hp, htr]
    simp [exportAction, hr]
  · intro c state id query doc hmeta hpan
    have hr : viewRemote c id = none := by
      simp [viewRemote, hmeta, hpan]
    simp [viewAction, hr]
  · intro c state id query doc page segs hmeta hpan hnone htr hne
    cases hfind : (page.docs.getD []).find? (fun d => d.id == id) with
    | none =>
      simp [exportAction, exportRemote, hmeta, hpan, htr, hfind, hne]
    | some m =>
      rw [hfind] at hnone
      simp only [Option.some_bind] at hnone
      simp [exportAction, exportRemote, hmeta, hpan, htr, hfind, hnone, hne]

/-- C3 witness: the amended statements applied at concrete clients, one
whose transcript fetch fails (full fallback) and one for which every fetch
succeeds with an absent summary panel (piece rendered absent, remote
kept). -/
theorem c3_detail_composition_witness :
    exportAction (some c3Client) c3State "m1" "m1" =
      exportAction none c3State "m1" "m1" ∧
    exportAction (some c3OkClient) c3State "m1" "m1" =
      .ok { doc := c3Remote, docOrigin := .remote, summary := none,
            transcript := some (.remote, formatTranscriptMarkdownOutput []) } := by
  constructor
  · exact c3_detail_composition.1 c3Client c3State "m1" "m1" c3Remote rfl rfl
  · exact c3_detail_composition.2.2 c3OkClient c3State "m1" "m1" c3Remote
      { docs := some [] } [] rfl rfl rfl rfl rfl

/-- C7: a detail view never mixes origins: however the view or export
action resolves, every displayed optional piece carries the same origin as
the displayed metadata; and when the remote metadata fetch fails, the view
is identical to running with no client, so everything comes from the
cache. -/
theorem c7_source_homogeneity :
    (∀ (client : Option ApiClient) (state : CacheState) (id query : String)
       (out : ViewOut), viewAction client state id query = .ok out →
       (∀ p ∈ out.notes, p.1 = out.docOrigin) ∧
       (∀ p ∈ out.enhanced, p.1 = out.docOrigin)) ∧
    (∀ (client : Option ApiClient) (state : CacheState) (id query : String)
       (out : ExportOut), exportAction client state id query = .ok out →
       (∀ p ∈ out.summary, p.1 = out.docOrigin) ∧
       (∀ p ∈ out.transcript, p.1 = out.docOrigin)) ∧
    (∀ (c : ApiClient) (state : CacheState) (id query : String),
       c.getDocumentMetadata id = .error () →
       viewAction (some c) state id query = viewAction none state id query ∧
       exportAction (some c) state id query = exportAction none state id query) := by
  have hviewcache : ∀ (state : CacheState) (id query : String) (o : ViewOut),
      viewFromCacheData state id query = .ok o →
      (∀ p ∈ o.notes, p.1 = o.docOrigin) ∧ (∀ p ∈ o.enhanced, p.1 = o.docOrigin) := by
    intro state id query o ho
    cases hdoc : getDocumentById state id with
    | none => simp [viewFromCacheData, hdoc] at ho
    | some cached =>
      simp only [viewFromCacheData, hdoc] at ho
      rw [Except.ok.injEq] at ho
      subst ho
      exact ⟨fun p hp => mem_tag hp, fun p hp => mem_tag hp⟩
  have hexpcache : ∀ (state : CacheState) (id query : String) (o : ExportOut),
      exportFromCacheData state id query = .ok o →
      (∀ p ∈ o.summary, p.1 = o.docOrigin) ∧ (∀ p ∈ o.transcript, p.1 = o.docOrigin) := by
    intro state id query o ho
    cases hdoc : getDocumentById state id with
    | none => simp [exportFromCacheData, hdoc] at ho
    | some cached =>
      simp only [exportFromCacheData, hdoc] at ho
      rw [Except.ok.injEq] at ho
      subst ho
      exact ⟨fun p hp => mem_tag hp, fun p hp => mem_tag hp⟩
  refine ⟨?_, ?_, ?_⟩
  · intro client state id query out h
    cases client with
    | none => exact hviewcache state id query out h
    | some c =>
      cases hr : viewRemote c id with
      | none =>
        simp only [viewAction, hr] at h
        exact hviewcache state id query out h
      | some trip =>
        obtain ⟨doc, notes, enhanced⟩ := trip
        simp only [viewAction, hr] at h
        rw [Except.ok.injEq] at h
        subst h
        exact ⟨fun p hp => mem_tag hp, fun p hp => mem_tag hp⟩
  · intro client state id query out h
    cases client with
    | none =>
      simp only [exportAction] at h
      cases hb : exportFromCacheData state id query with
      | error e => rw [hb] at h; cases h
      | ok o =>
        rw [hb] at h
        rw [Except.ok.injEq] at h
        subst h
        obtain ⟨h1, h2⟩ := hexpcache state id query o hb
        exact ⟨h1, h2⟩
    | some c =>
      simp only [exportAction] at h
      cases hr : exportRemote c id with
      | none =>
        rw [hr] at h
        cases hb : exportFromCacheData state id query with
        | error e => rw [hb] at h; cases h
        | ok o =>
          rw [hb] at h
          rw [Except.ok.injEq] at h
          subst h
          obtain ⟨h1, h2⟩ := hexpcache state id query o hb
          exact ⟨h1, h2⟩
      | some trip =>
        obtain ⟨doc, summary, transcript⟩ := trip
        rw [hr] at h
        rw [Except.ok.injEq] at h
        subst h
        exact ⟨fun p hp => mem_tag hp, fun p hp => mem_tag hp⟩
  · intro c state id query hmeta
    constructor
    · have hr : viewRemote c id = none := by simp [viewRemote, hmeta]
      simp [viewAction, hr]
    · have hr : exportRemote c id = none := by simp [exportRemote, hmeta]
      simp [exportAction, hr]

/-- C7 witness: homogeneity of the remote-success view on the concrete
client, and the all-cache equality when the metadata fetch fails. -/
theorem c7_source_homogeneity_witness :
    ((∀ p ∈ c7Out.notes, p.1 = c7Out.docOrigin) ∧
     (∀ p ∈ c7Out.enhanced, p.1 = c7Out.docOrigin)) ∧
    viewAction (some ({} : ApiClient)) c3State "m1" "m1" =
      viewAction none c3State "m1" "m1" := by
  constructor
  · exact c7_source_homogeneity.1 (some c3Client) c3State "m1" "m1" c7Out rfl
  · exact (c7_source_homogeneity.2.2 ({} : ApiClient) c3State "m1" "m1" rfl).1

/-- C9 witness: the folder query Sal resolves the folder titled Sales
case-insensitively, the returned document b2 is in its membership list,
and an unmatched folder query returns the empty sequence. -/
theorem c9_folder_lookup_witness :
    getDocumentsByFolderFromCache c2State "zzz" = [] ∧
    (∃ f, f ∈ getFoldersFromCache c2State ∧ folderMatchQ f "Sal" = true ∧
       c2Trashed.id ∈ (objLookup (c2State.documentLists.getD []) f.id).getD []) := by
  constructor
  · exact c9_folder_lookup.1 c2State "zzz" (by decide)
  · exact c9_folder_lookup.2 c2State "Sal" c2Trashed (by decide)

end Granola
